import Mathlib

/-!
# Dense-AD `Evaluation` algebra and its unrolled specializations

A shallow embedding of the C++ `Evaluation<ValueT, N>` class emitted by
`bin/genEvalSpecializations.py`.  The script renders one Jinja template twice:
with `numDerivs < 0` it emits the *generic* class whose per-component work is a
runtime `for` loop, and for each concrete `numDerivs = N` it emits an
*unrolled* specialization where each loop is replaced by `N` (or `N+1`)
explicit per-index assignment statements.

The scalar field `ValueT` is modelled by `ℚ` (an exact field; division by a
zero value, which in C++ follows IEEE rules, only ever appears below guarded by
nonzero-value hypotheses or with both sides computed through the same `1/v`
expression).  The storage `std::array<ValueT, N+1>` is modelled by a total map
`Fin (N+1) → ℚ`: slot 0 (`valuepos_`) holds the value and slots `1 .. N`
(`dstart_ .. dend_-1`) hold the derivatives.

The generic variant's loops are modelled by `cppFor` (a `for (i = s; i < stop;
++i)` loop with its iteration count made explicit, so that it computes by
structural recursion); the unrolled variant's statement sequences are modelled
by `stmts`, a left fold over the literal list of emitted indices.  Both
variants use the *same* per-index statement bodies (`clearBody`, `addBody`,
`mulBody`, ...), exactly as both are rendered from the same template lines, so
the per-component operation order coincides by construction.
-/

namespace OpmDenseAD

/-- The dense-AD evaluation of the template: `data_` has `length_ = size + 1`
slots, slot `valuepos_ = 0` is the function value and slots
`dstart_ = 1 .. dend_ - 1 = size` are the derivatives. -/
structure Evaluation (n : ℕ) where
  data_ : Fin (n + 1) → ℚ

namespace Evaluation

variable {n : ℕ}

instance instDecEqEvaluation : DecidableEq (Evaluation n) := fun a b =>
  decidable_of_iff (a.data_ = b.data_) (by cases a; cases b; simp)

/-- Read `data_[i]`.  The embedded code only ever reads in range; the
out-of-range default 0 is never exercised. -/
def getD (e : Evaluation n) (i : ℕ) : ℚ :=
  if h : i < n + 1 then e.data_ ⟨i, h⟩ else 0

/-- Write `data_[i] = x`.  The embedded code only ever writes in range; the
out-of-range no-op is never exercised. -/
def setD (e : Evaluation n) (i : ℕ) (x : ℚ) : Evaluation n :=
  if h : i < n + 1 then ⟨Function.update e.data_ ⟨i, h⟩ x⟩ else e

/-- `value()`: returns `data_[valuepos_]`. -/
def value (e : Evaluation n) : ℚ := e.getD 0

/-- `setValue(val)`: `data_[valuepos_] = val`. -/
def setValue (e : Evaluation n) (val : ℚ) : Evaluation n := e.setD 0 val

/-- `derivative(varIdx)`: returns `data_[dstart_ + varIdx]` (the source asserts
`0 <= varIdx && varIdx < size`; every use below is in range). -/
def derivative (e : Evaluation n) (varIdx : ℕ) : ℚ := e.getD (1 + varIdx)

/-- `setDerivative(varIdx, derVal)`: `data_[dstart_ + varIdx] = derVal`. -/
def setDerivative (e : Evaluation n) (varIdx : ℕ) (derVal : ℚ) : Evaluation n :=
  e.setD (1 + varIdx) derVal

/-- A C++ counted loop `for (int i = ...; i < stop; ++i) body`, with the
iteration count `fuel = stop - i` made explicit so the model computes by
structural recursion. -/
def cppForAux {α : Type} (body : ℕ → α → α) : ℕ → ℕ → α → α
  | 0, _, st => st
  | fuel + 1, i, st => cppForAux body fuel (i + 1) (body i st)

/-- `cppFor stop body i st` runs `body` at indices `i, i+1, ..., stop-1`,
modelling `for (int k = i; k < stop; ++k) st = body k st`. -/
def cppFor {α : Type} (stop : ℕ) (body : ℕ → α → α) (i : ℕ) (st : α) : α :=
  cppForAux body (stop - i) i st

/-- The unrolled statement sequence of a specialized file: one fold step per
emitted per-index statement, in emission order. -/
def stmts {α : Type} (idxs : List ℕ) (body : ℕ → α → α) (st : α) : α :=
  idxs.foldl (fun st i => body i st) st

/-- Loop body of `clearDerivatives`: `data_[i] = 0.0`. -/
def clearBody : ℕ → Evaluation n → Evaluation n :=
  fun i st => st.setD i 0

/-- Loop body of `copyDerivatives`, the specialized copy constructor and copy
assignment: `data_[i] = other.data_[i]`. -/
def copyBody (other : Evaluation n) : ℕ → Evaluation n → Evaluation n :=
  fun i st => st.setD i (other.getD i)

/-- Loop body of `operator+=`: `data_[i] += other.data_[i]`. -/
def addBody (other : Evaluation n) : ℕ → Evaluation n → Evaluation n :=
  fun i st => st.setD i (st.getD i + other.getD i)

/-- Loop body of `operator-=`: `data_[i] -= other.data_[i]`. -/
def subBody (other : Evaluation n) : ℕ → Evaluation n → Evaluation n :=
  fun i st => st.setD i (st.getD i - other.getD i)

/-- Loop body of `operator*=`: `data_[i] = data_[i] * v + other.data_[i] * u`. -/
def mulBody (other : Evaluation n) (u v : ℚ) : ℕ → Evaluation n → Evaluation n :=
  fun i st => st.setD i (st.getD i * v + other.getD i * u)

/-- Loop body of the scalar `operator*=` and `operator/=`: `data_[i] *= c`. -/
def scaleBody (c : ℚ) : ℕ → Evaluation n → Evaluation n :=
  fun i st => st.setD i (st.getD i * c)

/-- Loop body of `operator/=`: `data_[i] = data_[i] * v_vv - other.data_[i] * u_vv`. -/
def divBody (other : Evaluation n) (v_vv u_vv : ℚ) : ℕ → Evaluation n → Evaluation n :=
  fun i st => st.setD i (st.getD i * v_vv - other.getD i * u_vv)

/-- Loop body of the static `divide`: `result.data_[i] = df_dg * b.data_[i]`. -/
def divideBody (b : Evaluation n) (df_dg : ℚ) : ℕ → Evaluation n → Evaluation n :=
  fun i st => st.setD i (df_dg * b.getD i)

/-- Loop body of unary `operator-`: `result.data_[i] = - data_[i]`. -/
def negBody (src : Evaluation n) : ℕ → Evaluation n → Evaluation n :=
  fun i st => st.setD i (- src.getD i)

end Evaluation

/-!
## The generic (loop-based) variant

Rendered from the template with `numDerivs < 0`: every per-component operation
is a `for (int i = ...; i < length_ / dend_; ++i)` loop.  Constructors whose
`data_` member is *not* initialized before the body runs (`Evaluation(c)`,
`Evaluation(c, varPos)`) take the indeterminate initial contents as an explicit
`init` argument.
-/

namespace Generic

open Evaluation

variable {n : ℕ}

/-- `Evaluation() : data_() {}` — value-initializes every slot to zero. -/
def defaultCtor : Evaluation n := ⟨fun _ => 0⟩

/-- generic copy constructor: member-init `data_(other.data_)`. -/
def copyCtor (other : Evaluation n) : Evaluation n := ⟨other.data_⟩

/-- `clearDerivatives()`: `for (i = dstart_; i < dend_; ++i) data_[i] = 0.0`. -/
def clearDerivatives (e : Evaluation n) : Evaluation n :=
  cppFor (n + 1) clearBody 1 e

/-- Constant constructor `Evaluation(c)`: `setValue(c); clearDerivatives();`,
starting from indeterminate `data_` contents `init`. -/
def mkConstant (init : Evaluation n) (c : ℚ) : Evaluation n :=
  clearDerivatives (init.setValue c)

/-- Variable constructor `Evaluation(c, varPos)`: `assert(0 <= varPos && varPos
< size)` (assertion failure modelled as `none`), then `setValue(c);
clearDerivatives(); data_[varPos + dstart_] = 1.0;`, starting from
indeterminate `data_` contents `init`. -/
def mkVariable (init : Evaluation n) (c : ℚ) (varPos : ℤ) : Option (Evaluation n) :=
  if 0 ≤ varPos ∧ varPos < (n : ℤ) then
    some (((clearDerivatives (init.setValue c))).setD (varPos.toNat + 1) 1)
  else
    none

/-- `createVariable(value, varPos)`: `return Evaluation(value, varPos);`. -/
def createVariable (init : Evaluation n) (v : ℚ) (varPos : ℤ) : Option (Evaluation n) :=
  mkVariable init v varPos

/-- `createConstant(value)`: `return Evaluation(value);`. -/
def createConstant (init : Evaluation n) (v : ℚ) : Evaluation n :=
  mkConstant init v

/-- `copyDerivatives(other)`: `for (i = dstart_; i < dend_; ++i) data_[i] =
other.data_[i]`. -/
def copyDerivatives (e other : Evaluation n) : Evaluation n :=
  cppFor (n + 1) (copyBody other) 1 e

/-- `operator+=(const Evaluation&)`: `for (i = 0; i < length_; ++i) data_[i] +=
other.data_[i]`. -/
def addAssign (e other : Evaluation n) : Evaluation n :=
  cppFor (n + 1) (addBody other) 0 e

/-- Scalar `operator+=`: `data_[valuepos_] += other` (derivatives unchanged). -/
def addAssignScalar (e : Evaluation n) (other : ℚ) : Evaluation n :=
  e.setD 0 (e.getD 0 + other)

/-- `operator-=(const Evaluation&)`: `for (i = 0; i < length_; ++i) data_[i] -=
other.data_[i]`. -/
def subAssign (e other : Evaluation n) : Evaluation n :=
  cppFor (n + 1) (subBody other) 0 e

/-- Scalar `operator-=`: `data_[valuepos_] -= other`. -/
def subAssignScalar (e : Evaluation n) (other : ℚ) : Evaluation n :=
  e.setD 0 (e.getD 0 - other)

/-- `operator*=(const Evaluation&)`: capture `u = this->value()`,
`v = other.value()` first, then `data_[valuepos_] *= v`, then for each
derivative `data_[i] = data_[i] * v + other.data_[i] * u`. -/
def mulAssign (e other : Evaluation n) : Evaluation n :=
  let u := e.value
  let v := other.value
  cppFor (n + 1) (mulBody other u v) 1 (e.setD 0 (e.getD 0 * v))

/-- Scalar `operator*=`: `for (i = 0; i < length_; ++i) data_[i] *= other`. -/
def mulAssignScalar (e : Evaluation n) (other : ℚ) : Evaluation n :=
  cppFor (n + 1) (scaleBody other) 0 e

/-- `operator/=(const Evaluation&)`: capture `v_vv = 1.0 / other.value()` and
`u_vv = value() * v_vv * v_vv` first, then `data_[valuepos_] *= v_vv`, then for
each derivative `data_[i] = data_[i] * v_vv - other.data_[i] * u_vv`. -/
def divAssign (e other : Evaluation n) : Evaluation n :=
  let v_vv := 1 / other.value
  let u_vv := e.value * v_vv * v_vv
  cppFor (n + 1) (divBody other v_vv u_vv) 1 (e.setD 0 (e.getD 0 * v_vv))

/-- Scalar `operator/=`: `tmp = 1.0/other; for (i = 0; i < length_; ++i)
data_[i] *= tmp`. -/
def divAssignScalar (e : Evaluation n) (other : ℚ) : Evaluation n :=
  let tmp := 1 / other
  cppFor (n + 1) (scaleBody tmp) 0 e

/-- Static `divide(a, b)`: `Evaluation result;` (zero-initialized), `tmp =
1.0/b.value(); result.setValue(a*tmp); df_dg = -result.value()*tmp;` then for
each derivative `result.data_[i] = df_dg * b.data_[i]`. -/
def divide (a : ℚ) (b : Evaluation n) : Evaluation n :=
  let result : Evaluation n := defaultCtor
  let tmp := 1 / b.value
  let result := result.setValue (a * tmp)
  let df_dg := - result.value * tmp
  cppFor (n + 1) (divideBody b df_dg) 1 result

/-- `operator+(const Evaluation&)`: `Evaluation result(*this); result += other;`. -/
def add (e other : Evaluation n) : Evaluation n :=
  addAssign (copyCtor e) other

/-- Scalar `operator+`. -/
def addScalar (e : Evaluation n) (other : ℚ) : Evaluation n :=
  addAssignScalar (copyCtor e) other

/-- `operator-(const Evaluation&)`. -/
def sub (e other : Evaluation n) : Evaluation n :=
  subAssign (copyCtor e) other

/-- Scalar `operator-`. -/
def subScalar (e : Evaluation n) (other : ℚ) : Evaluation n :=
  subAssignScalar (copyCtor e) other

/-- Unary `operator-`: `Evaluation result;` (zero-initialized) then for every
slot `result.data_[i] = - data_[i]`. -/
def neg (e : Evaluation n) : Evaluation n :=
  cppFor (n + 1) (negBody e) 0 defaultCtor

/-- `operator*(const Evaluation&)`. -/
def mul (e other : Evaluation n) : Evaluation n :=
  mulAssign (copyCtor e) other

/-- Scalar `operator*`. -/
def mulScalar (e : Evaluation n) (other : ℚ) : Evaluation n :=
  mulAssignScalar (copyCtor e) other

/-- `operator/(const Evaluation&)`. -/
def div (e other : Evaluation n) : Evaluation n :=
  divAssign (copyCtor e) other

/-- Scalar `operator/`. -/
def divScalar (e : Evaluation n) (other : ℚ) : Evaluation n :=
  divAssignScalar (copyCtor e) other

/-- Scalar `operator=`: `setValue(other); clearDerivatives();`. -/
def assignScalar (e : Evaluation n) (other : ℚ) : Evaluation n :=
  clearDerivatives (e.setValue other)

/-- Copy `operator=`: `for (i = 0; i < length_; ++i) data_[i] = other.data_[i]`. -/
def copyAssign (e other : Evaluation n) : Evaluation n :=
  cppFor (n + 1) (copyBody other) 0 e

/-- `operator==(const Evaluation&)`: compares every slot of `data_` (value and
all derivatives); false as soon as one differs. -/
def beq (a b : Evaluation n) : Bool :=
  (List.finRange (n + 1)).all fun idx => a.data_ idx == b.data_ idx

/-- `operator!=(const Evaluation&)`: `!operator==(other)`. -/
def bne (a b : Evaluation n) : Bool := !(beq a b)

/-- Scalar `operator==`: `value() == other`. -/
def eqScalar (a : Evaluation n) (c : ℚ) : Bool := a.value == c

/-- `operator>(const Evaluation&)`: `value() > other.value()`. -/
def gtE (a b : Evaluation n) : Bool := decide (a.value > b.value)

/-- Scalar `operator>`: `value() > other`. -/
def gtScalar (a : Evaluation n) (c : ℚ) : Bool := decide (a.value > c)

/-- `operator<(const Evaluation&)`: `value() < other.value()`. -/
def ltE (a b : Evaluation n) : Bool := decide (a.value < b.value)

/-- Scalar `operator<`: `value() < other`. -/
def ltScalar (a : Evaluation n) (c : ℚ) : Bool := decide (a.value < c)

/-- `operator>=(const Evaluation&)`: `value() >= other.value()`. -/
def geE (a b : Evaluation n) : Bool := decide (a.value ≥ b.value)

/-- Scalar `operator>=`: `value() >= other`. -/
def geScalar (a : Evaluation n) (c : ℚ) : Bool := decide (a.value ≥ c)

/-- `operator<=(const Evaluation&)`: `value() <= other.value()`. -/
def leE (a b : Evaluation n) : Bool := decide (a.value ≤ b.value)

/-- Scalar `operator<=`: `value() <= other`. -/
def leScalar (a : Evaluation n) (c : ℚ) : Bool := decide (a.value ≤ c)

/-- Free `operator<(scalar, Evaluation)`: `return b > a;`. -/
def scalarLt (a : ℚ) (b : Evaluation n) : Bool := gtScalar b a

/-- Free `operator>(scalar, Evaluation)`: `return b < a;`. -/
def scalarGt (a : ℚ) (b : Evaluation n) : Bool := ltScalar b a

/-- Free `operator<=(scalar, Evaluation)`: `return b >= a;`. -/
def scalarLe (a : ℚ) (b : Evaluation n) : Bool := geScalar b a

/-- Free `operator>=(scalar, Evaluation)`: `return b <= a;`. -/
def scalarGe (a : ℚ) (b : Evaluation n) : Bool := leScalar b a

/-- Free `operator!=(scalar, Evaluation)`: `return a != b.value();`. -/
def scalarNe (a : ℚ) (b : Evaluation n) : Bool := a != b.value

/-- Free `operator+(scalar, Evaluation)`: `Evaluation result(b); result += a;`. -/
def scalarAdd (a : ℚ) (b : Evaluation n) : Evaluation n :=
  addAssignScalar (copyCtor b) a

/-- Free `operator-(scalar, Evaluation)`: `Evaluation result(a);` — the
constant constructor, with indeterminate initial contents `init` — then
`result -= b;`. -/
def scalarSub (init : Evaluation n) (a : ℚ) (b : Evaluation n) : Evaluation n :=
  subAssign (mkConstant init a) b

/-- Free `operator/(scalar, Evaluation)`: `return Evaluation::divide(a, b);`. -/
def scalarDiv (a : ℚ) (b : Evaluation n) : Evaluation n :=
  divide a b

/-- Free `operator*(scalar, Evaluation)`: `Evaluation result(b); result *= a;`. -/
def scalarMul (a : ℚ) (b : Evaluation n) : Evaluation n :=
  mulAssignScalar (copyCtor b) a

end Generic

/-!
## The unrolled variant

Rendered from the same template with `numDerivs = n ≥ 1`: every loop is
replaced by the literal sequence of per-index statements, `data_[0] op ...;
data_[1] op ...; ...`, i.e. a fold of the *same* statement body over the
literal index list (`range(0, numDerivs+1)` resp. `range(1, numDerivs+1)` in
the template).  The specialized copy constructor leaves `data_` uninitialized
(modelled by `init`) and then assigns every slot. -/

namespace Unrolled

open Evaluation

variable {n : ℕ}

/-- `Evaluation() : data_() {}` — identical text to the generic variant. -/
def defaultCtor : Evaluation n := ⟨fun _ => 0⟩

/-- Unrolled copy constructor: default-initialized (indeterminate) `data_`
modelled by `init`, then `data_[i] = other.data_[i];` for `i = 0 .. n`. -/
def copyCtor (init other : Evaluation n) : Evaluation n :=
  stmts (List.range' 0 (n + 1)) (copyBody other) init

/-- Unrolled `clearDerivatives()`: `data_[i] = 0.0;` for `i = 1 .. n`. -/
def clearDerivatives (e : Evaluation n) : Evaluation n :=
  stmts (List.range' 1 n) clearBody e

/-- Constant constructor `Evaluation(c)` (calls the unrolled
`clearDerivatives`). -/
def mkConstant (init : Evaluation n) (c : ℚ) : Evaluation n :=
  clearDerivatives (init.setValue c)

/-- Variable constructor `Evaluation(c, varPos)` (calls the unrolled
`clearDerivatives`). -/
def mkVariable (init : Evaluation n) (c : ℚ) (varPos : ℤ) : Option (Evaluation n) :=
  if 0 ≤ varPos ∧ varPos < (n : ℤ) then
    some (((clearDerivatives (init.setValue c))).setD (varPos.toNat + 1) 1)
  else
    none

/-- `createVariable(value, varPos)`. -/
def createVariable (init : Evaluation n) (v : ℚ) (varPos : ℤ) : Option (Evaluation n) :=
  mkVariable init v varPos

/-- `createConstant(value)`. -/
def createConstant (init : Evaluation n) (v : ℚ) : Evaluation n :=
  mkConstant init v

/-- Unrolled `copyDerivatives(other)`: `data_[i] = other.data_[i];` for
`i = 1 .. n`. -/
def copyDerivatives (e other : Evaluation n) : Evaluation n :=
  stmts (List.range' 1 n) (copyBody other) e

/-- Unrolled `operator+=(const Evaluation&)`: `data_[i] += other.data_[i];`
for `i = 0 .. n`. -/
def addAssign (e other : Evaluation n) : Evaluation n :=
  stmts (List.range' 0 (n + 1)) (addBody other) e

/-- Scalar `operator+=` — identical text to the generic variant. -/
def addAssignScalar (e : Evaluation n) (other : ℚ) : Evaluation n :=
  e.setD 0 (e.getD 0 + other)

/-- Unrolled `operator-=(const Evaluation&)`. -/
def subAssign (e other : Evaluation n) : Evaluation n :=
  stmts (List.range' 0 (n + 1)) (subBody other) e

/-- Scalar `operator-=` — identical text to the generic variant. -/
def subAssignScalar (e : Evaluation n) (other : ℚ) : Evaluation n :=
  e.setD 0 (e.getD 0 - other)

/-- Unrolled `operator*=(const Evaluation&)`: same captures `u`, `v` and value
update, then the unrolled derivative statements for `i = 1 .. n`. -/
def mulAssign (e other : Evaluation n) : Evaluation n :=
  let u := e.value
  let v := other.value
  stmts (List.range' 1 n) (mulBody other u v) (e.setD 0 (e.getD 0 * v))

/-- Unrolled scalar `operator*=`: `data_[i] *= other;` for `i = 0 .. n`. -/
def mulAssignScalar (e : Evaluation n) (other : ℚ) : Evaluation n :=
  stmts (List.range' 0 (n + 1)) (scaleBody other) e

/-- Unrolled `operator/=(const Evaluation&)`: same captures `v_vv`, `u_vv` and
value update, then the unrolled derivative statements for `i = 1 .. n`. -/
def divAssign (e other : Evaluation n) : Evaluation n :=
  let v_vv := 1 / other.value
  let u_vv := e.value * v_vv * v_vv
  stmts (List.range' 1 n) (divBody other v_vv u_vv) (e.setD 0 (e.getD 0 * v_vv))

/-- Unrolled scalar `operator/=`: `tmp = 1.0/other;` then `data_[i] *= tmp;`
for `i = 0 .. n`. -/
def divAssignScalar (e : Evaluation n) (other : ℚ) : Evaluation n :=
  let tmp := 1 / other
  stmts (List.range' 0 (n + 1)) (scaleBody tmp) e

/-- Unrolled static `divide(a, b)`. -/
def divide (a : ℚ) (b : Evaluation n) : Evaluation n :=
  let result : Evaluation n := defaultCtor
  let tmp := 1 / b.value
  let result := result.setValue (a * tmp)
  let df_dg := - result.value * tmp
  stmts (List.range' 1 n) (divideBody b df_dg) result

/-- `operator+(const Evaluation&)`: `Evaluation result(*this); result +=
other;` — the copy uses the unrolled copy constructor, whose indeterminate
initial contents are `init`. -/
def add (init e other : Evaluation n) : Evaluation n :=
  addAssign (copyCtor init e) other

/-- Scalar `operator+`. -/
def addScalar (init e : Evaluation n) (other : ℚ) : Evaluation n :=
  addAssignScalar (copyCtor init e) other

/-- `operator-(const Evaluation&)`. -/
def sub (init e other : Evaluation n) : Evaluation n :=
  subAssign (copyCtor init e) other

/-- Scalar `operator-`. -/
def subScalar (init e : Evaluation n) (other : ℚ) : Evaluation n :=
  subAssignScalar (copyCtor init e) other

/-- Unrolled unary `operator-`: `Evaluation result;` (zero-initialized) then
`result.data_[i] = - data_[i];` for `i = 0 .. n`. -/
def neg (e : Evaluation n) : Evaluation n :=
  stmts (List.range' 0 (n + 1)) (negBody e) defaultCtor

/-- `operator*(const Evaluation&)`. -/
def mul (init e other : Evaluation n) : Evaluation n :=
  mulAssign (copyCtor init e) other

/-- Scalar `operator*`. -/
def mulScalar (init e : Evaluation n) (other : ℚ) : Evaluation n :=
  mulAssignScalar (copyCtor init e) other

/-- `operator/(const Evaluation&)`. -/
def div (init e other : Evaluation n) : Evaluation n :=
  divAssign (copyCtor init e) other

/-- Scalar `operator/`. -/
def divScalar (init e : Evaluation n) (other : ℚ) : Evaluation n :=
  divAssignScalar (copyCtor init e) other

/-- Scalar `operator=` (calls the unrolled `clearDerivatives`). -/
def assignScalar (e : Evaluation n) (other : ℚ) : Evaluation n :=
  clearDerivatives (e.setValue other)

/-- Unrolled copy `operator=`: `data_[i] = other.data_[i];` for `i = 0 .. n`. -/
def copyAssign (e other : Evaluation n) : Evaluation n :=
  stmts (List.range' 0 (n + 1)) (copyBody other) e

/-- `operator==(const Evaluation&)` — identical text to the generic variant. -/
def beq (a b : Evaluation n) : Bool :=
  (List.finRange (n + 1)).all fun idx => a.data_ idx == b.data_ idx

/-- `operator!=(const Evaluation&)`. -/
def bne (a b : Evaluation n) : Bool := !(beq a b)

/-- Scalar `operator==`. -/
def eqScalar (a : Evaluation n) (c : ℚ) : Bool := a.value == c

/-- `operator>(const Evaluation&)`. -/
def gtE (a b : Evaluation n) : Bool := decide (a.value > b.value)

/-- Scalar `operator>`. -/
def gtScalar (a : Evaluation n) (c : ℚ) : Bool := decide (a.value > c)

/-- `operator<(const Evaluation&)`. -/
def ltE (a b : Evaluation n) : Bool := decide (a.value < b.value)

/-- Scalar `operator<`. -/
def ltScalar (a : Evaluation n) (c : ℚ) : Bool := decide (a.value < c)

/-- `operator>=(const Evaluation&)`. -/
def geE (a b : Evaluation n) : Bool := decide (a.value ≥ b.value)

/-- Scalar `operator>=`. -/
def geScalar (a : Evaluation n) (c : ℚ) : Bool := decide (a.value ≥ c)

/-- `operator<=(const Evaluation&)`. -/
def leE (a b : Evaluation n) : Bool := decide (a.value ≤ b.value)

/-- Scalar `operator<=`. -/
def leScalar (a : Evaluation n) (c : ℚ) : Bool := decide (a.value ≤ c)

end Unrolled

/-!
## The generation run

`template.render` is a pure function of the template and its parameters, so
each produced file is modelled by the template that was rendered together with
the parameters passed to `render` (`numDerivs`, `scriptName`, `fileNames`).
The script writes the generic file, then one specialization per `numDerivs`
in `range(1, maxDerivs + 1)` (appending each file name to `fileNames`), and
finally the aggregator rendered from the accumulated `fileNames`.
-/

/-- A generated file, identified by the rendered template and its `render`
parameters. -/
inductive FileContent where
  | generic (scriptName : String)
  | specialization (numDerivs : ℕ) (scriptName : String)
  | aggregator (fileNames : List String) (scriptName : String)
deriving DecidableEq

/-- `"opm/material/densead/Evaluation%d.hpp" % numDerivs`. -/
def specFileName (numDerivs : ℕ) : String :=
  "opm/material/densead/Evaluation" ++ toString numDerivs ++ ".hpp"

/-- The generic output file name. -/
def genericFileName : String := "opm/material/densead/Evaluation.hpp"

/-- The aggregator output file name. -/
def aggregatorFileName : String := "opm/material/densead/EvaluationSpecializations.hpp"

/-- One iteration of the main generation loop: append the specialization's
file name to `fileNames` and write the rendered specialization. -/
def genStep (scriptName : String) (acc : List String × List (String × FileContent))
    (numDerivs : ℕ) : List String × List (String × FileContent) :=
  (acc.1 ++ [specFileName numDerivs],
   acc.2 ++ [(specFileName numDerivs, FileContent.specialization numDerivs scriptName)])

/-- The whole generation run: the generic file, the loop over
`range(1, maxDerivs + 1)`, then the aggregator over the accumulated
`fileNames`.  Returns the written files in order as (name, content) pairs. -/
def generate (maxDerivs : ℕ) (scriptName : String) : List (String × FileContent) :=
  let afterGeneric : List (String × FileContent) :=
    [(genericFileName, FileContent.generic scriptName)]
  let res := (List.range' 1 maxDerivs).foldl (genStep scriptName) ([], afterGeneric)
  res.2 ++ [(aggregatorFileName, FileContent.aggregator res.1 scriptName)]

/-!
## Basic lemmas about the storage model and the loop combinators
-/

namespace Evaluation

variable {n : ℕ}

theorem getD_setD (e : Evaluation n) (i j : ℕ) (x : ℚ) :
    (e.setD i x).getD j = if i = j ∧ j < n + 1 then x else e.getD j := by
  unfold setD getD
  split_ifs with h1 h2 h3 h4 h5 <;>
    [skip; skip; skip; skip; skip; skip] <;>
    simp_all [Function.update_apply, Fin.ext_iff]
  omega

theorem eq_of_getD {a b : Evaluation n} (h : ∀ j, j < n + 1 → a.getD j = b.getD j) :
    a = b := by
  cases a with | mk f =>
  cases b with | mk g =>
  congr 1
  funext idx
  have hidx := h idx.val idx.isLt
  simpa [getD] using hidx

theorem cppForAux_eq_stmts {α : Type} (body : ℕ → α → α) :
    ∀ (fuel i : ℕ) (st : α), cppForAux body fuel i st = stmts (List.range' i fuel) body st := by
  intro fuel
  induction fuel with
  | zero => intro i st; rfl
  | succ m ih =>
      intro i st
      rw [List.range'_succ]
      exact ih (i + 1) (body i st)

theorem cppFor_one_eq_stmts {α : Type} (m : ℕ) (body : ℕ → α → α) (st : α) :
    cppFor (m + 1) body 1 st = stmts (List.range' 1 m) body st :=
  cppForAux_eq_stmts body m 1 st

theorem cppFor_zero_eq_stmts {α : Type} (m : ℕ) (body : ℕ → α → α) (st : α) :
    cppFor (m + 1) body 0 st = stmts (List.range' 0 (m + 1)) body st :=
  cppForAux_eq_stmts body (m + 1) 0 st

/-- Every loop body below writes slot `i` with a function `g` of the slot's
own previous content (and captured data): slot `j` of the loop's result is
`g j` of its old content when `j` lies in the iteration range, and is
untouched otherwise. -/
theorem getD_cppForAux_set (g : ℕ → ℚ → ℚ) :
    ∀ (fuel i : ℕ) (st : Evaluation n) (j : ℕ), j < n + 1 →
      (cppForAux (fun k st => st.setD k (g k (st.getD k))) fuel i st).getD j =
        if i ≤ j ∧ j < i + fuel then g j (st.getD j) else st.getD j := by
  intro fuel
  induction fuel with
  | zero =>
      intro i st j hj
      rw [if_neg (by omega : ¬(i ≤ j ∧ j < i + 0))]
      rfl
  | succ m ih =>
      intro i st j hj
      rw [show cppForAux (fun k st => st.setD k (g k (st.getD k))) (m + 1) i st
            = cppForAux (fun k st => st.setD k (g k (st.getD k))) m (i + 1)
                (st.setD i (g i (st.getD i))) from rfl,
          ih (i + 1) _ j hj]
      simp only [getD_setD]
      by_cases hij : i = j
      · subst hij
        simp only [true_and, if_pos hj, eq_self_iff_true]
        split_ifs <;> first | rfl | omega
      · simp only [hij, false_and, if_false]
        split_ifs <;> first | rfl | omega

theorem getD_cppFor_set (g : ℕ → ℚ → ℚ) (s : ℕ) (st : Evaluation n) (j : ℕ)
    (hj : j < n + 1) (hs : s ≤ n + 1) :
    (cppFor (n + 1) (fun k st => st.setD k (g k (st.getD k))) s st).getD j =
      if s ≤ j then g j (st.getD j) else st.getD j := by
  rw [show cppFor (n + 1) (fun k st => st.setD k (g k (st.getD k))) s st
        = cppForAux (fun k st => st.setD k (g k (st.getD k))) (n + 1 - s) s st from rfl,
      getD_cppForAux_set g (n + 1 - s) s st j hj]
  have hcond : (s ≤ j ∧ j < s + (n + 1 - s)) ↔ s ≤ j := by omega
  simp only [hcond]

theorem getD_cppFor_clearBody (s : ℕ) (st : Evaluation n) (j : ℕ)
    (hj : j < n + 1) (hs : s ≤ n + 1) :
    (cppFor (n + 1) clearBody s st).getD j = if s ≤ j then 0 else st.getD j :=
  getD_cppFor_set (fun _ _ => 0) s st j hj hs

theorem getD_cppFor_copyBody (other : Evaluation n) (s : ℕ) (st : Evaluation n) (j : ℕ)
    (hj : j < n + 1) (hs : s ≤ n + 1) :
    (cppFor (n + 1) (copyBody other) s st).getD j =
      if s ≤ j then other.getD j else st.getD j :=
  getD_cppFor_set (fun k _ => other.getD k) s st j hj hs

theorem getD_cppFor_addBody (other : Evaluation n) (s : ℕ) (st : Evaluation n) (j : ℕ)
    (hj : j < n + 1) (hs : s ≤ n + 1) :
    (cppFor (n + 1) (addBody other) s st).getD j =
      if s ≤ j then st.getD j + other.getD j else st.getD j :=
  getD_cppFor_set (fun k x => x + other.getD k) s st j hj hs

theorem getD_cppFor_subBody (other : Evaluation n) (s : ℕ) (st : Evaluation n) (j : ℕ)
    (hj : j < n + 1) (hs : s ≤ n + 1) :
    (cppFor (n + 1) (subBody other) s st).getD j =
      if s ≤ j then st.getD j - other.getD j else st.getD j :=
  getD_cppFor_set (fun k x => x - other.getD k) s st j hj hs

theorem getD_cppFor_mulBody (other : Evaluation n) (u v : ℚ) (s : ℕ) (st : Evaluation n)
    (j : ℕ) (hj : j < n + 1) (hs : s ≤ n + 1) :
    (cppFor (n + 1) (mulBody other u v) s st).getD j =
      if s ≤ j then st.getD j * v + other.getD j * u else st.getD j :=
  getD_cppFor_set (fun k x => x * v + other.getD k * u) s st j hj hs

theorem getD_cppFor_scaleBody (c : ℚ) (s : ℕ) (st : Evaluation n) (j : ℕ)
    (hj : j < n + 1) (hs : s ≤ n + 1) :
    (cppFor (n + 1) (scaleBody c) s st).getD j =
      if s ≤ j then st.getD j * c else st.getD j :=
  getD_cppFor_set (fun _ x => x * c) s st j hj hs

theorem getD_cppFor_divBody (other : Evaluation n) (v_vv u_vv : ℚ) (s : ℕ)
    (st : Evaluation n) (j : ℕ) (hj : j < n + 1) (hs : s ≤ n + 1) :
    (cppFor (n + 1) (divBody other v_vv u_vv) s st).getD j =
      if s ≤ j then st.getD j * v_vv - other.getD j * u_vv else st.getD j :=
  getD_cppFor_set (fun k x => x * v_vv - other.getD k * u_vv) s st j hj hs

theorem getD_cppFor_divideBody (b : Evaluation n) (df_dg : ℚ) (s : ℕ)
    (st : Evaluation n) (j : ℕ) (hj : j < n + 1) (hs : s ≤ n + 1) :
    (cppFor (n + 1) (divideBody b df_dg) s st).getD j =
      if s ≤ j then df_dg * b.getD j else st.getD j :=
  getD_cppFor_set (fun k _ => df_dg * b.getD k) s st j hj hs

theorem getD_cppFor_negBody (src : Evaluation n) (s : ℕ) (st : Evaluation n) (j : ℕ)
    (hj : j < n + 1) (hs : s ≤ n + 1) :
    (cppFor (n + 1) (negBody src) s st).getD j =
      if s ≤ j then - src.getD j else st.getD j :=
  getD_cppFor_set (fun k _ => - src.getD k) s st j hj hs

end Evaluation

/-!
## Component lemmas for the generic operations
-/

namespace Generic

open Evaluation

variable {n : ℕ}

theorem copyCtor_id (e : Evaluation n) : copyCtor e = e := rfl

theorem getD_clearDerivatives (e : Evaluation n) (j : ℕ) (hj : j < n + 1) :
    (clearDerivatives e).getD j = if 1 ≤ j then 0 else e.getD j :=
  getD_cppFor_clearBody 1 e j hj (by omega)

theorem value_clearDerivatives (e : Evaluation n) :
    (clearDerivatives e).value = e.value := by
  show (clearDerivatives e).getD 0 = e.getD 0
  rw [getD_clearDerivatives e 0 (by omega)]
  simp

theorem getD_mkConstant (init : Evaluation n) (c : ℚ) (j : ℕ) (hj : j < n + 1) :
    (mkConstant init c).getD j = if 1 ≤ j then 0 else c := by
  show (clearDerivatives (init.setValue c)).getD j = _
  rw [getD_clearDerivatives _ j hj]
  by_cases h1 : 1 ≤ j
  · simp [h1]
  · have h0 : j = 0 := by omega
    subst h0
    show (if 1 ≤ 0 then (0 : ℚ) else (init.setD 0 c).getD 0) = _
    rw [getD_setD]
    simp

theorem value_mkConstant (init : Evaluation n) (c : ℚ) :
    (mkConstant init c).value = c := by
  show (mkConstant init c).getD 0 = c
  rw [getD_mkConstant init c 0 (by omega)]
  simp

theorem derivative_mkConstant (init : Evaluation n) (c : ℚ) (k : ℕ) (hk : k < n) :
    (mkConstant init c).derivative k = 0 := by
  show (mkConstant init c).getD (1 + k) = 0
  rw [getD_mkConstant init c (1 + k) (by omega)]
  simp

theorem getD_addAssign (a b : Evaluation n) (j : ℕ) (hj : j < n + 1) :
    (addAssign a b).getD j = a.getD j + b.getD j := by
  show (cppFor (n + 1) (addBody b) 0 a).getD j = _
  rw [getD_cppFor_addBody b 0 a j hj (by omega)]
  simp

theorem getD_subAssign (a b : Evaluation n) (j : ℕ) (hj : j < n + 1) :
    (subAssign a b).getD j = a.getD j - b.getD j := by
  show (cppFor (n + 1) (subBody b) 0 a).getD j = _
  rw [getD_cppFor_subBody b 0 a j hj (by omega)]
  simp

theorem value_mulAssign (a b : Evaluation n) :
    (mulAssign a b).value = a.value * b.value := by
  show (cppFor (n + 1) (mulBody b a.value b.value) 1
      (a.setD 0 (a.getD 0 * b.value))).getD 0 = a.value * b.value
  rw [getD_cppFor_mulBody b a.value b.value 1 _ 0 (by omega) (by omega)]
  rw [if_neg (by omega : ¬(1 ≤ 0)), getD_setD,
      if_pos (⟨rfl, by omega⟩ : 0 = 0 ∧ 0 < n + 1)]
  rfl

theorem derivative_mulAssign (a b : Evaluation n) (k : ℕ) (hk : k < n) :
    (mulAssign a b).derivative k =
      a.derivative k * b.value + b.derivative k * a.value := by
  show (cppFor (n + 1) (mulBody b a.value b.value) 1
      (a.setD 0 (a.getD 0 * b.value))).getD (1 + k) = _
  rw [getD_cppFor_mulBody b a.value b.value 1 _ (1 + k) (by omega) (by omega)]
  rw [if_pos (by omega : 1 ≤ 1 + k), getD_setD]
  rw [if_neg (by omega : ¬(0 = 1 + k ∧ 1 + k < n + 1))]
  rfl

theorem value_divAssign (a b : Evaluation n) :
    (divAssign a b).value = a.value * (1 / b.value) := by
  show (cppFor (n + 1) (divBody b (1 / b.value) (a.value * (1 / b.value) * (1 / b.value))) 1
      (a.setD 0 (a.getD 0 * (1 / b.value)))).getD 0 = a.value * (1 / b.value)
  rw [getD_cppFor_divBody b _ _ 1 _ 0 (by omega) (by omega)]
  rw [if_neg (by omega : ¬(1 ≤ 0)), getD_setD,
      if_pos (⟨rfl, by omega⟩ : 0 = 0 ∧ 0 < n + 1)]
  rfl

theorem derivative_divAssign (a b : Evaluation n) (k : ℕ) (hk : k < n) :
    (divAssign a b).derivative k =
      a.derivative k * (1 / b.value)
        - b.derivative k * (a.value * (1 / b.value) * (1 / b.value)) := by
  show (cppFor (n + 1) (divBody b (1 / b.value) (a.value * (1 / b.value) * (1 / b.value))) 1
      (a.setD 0 (a.getD 0 * (1 / b.value)))).getD (1 + k) = _
  rw [getD_cppFor_divBody b _ _ 1 _ (1 + k) (by omega) (by omega)]
  rw [if_pos (by omega : 1 ≤ 1 + k), getD_setD]
  rw [if_neg (by omega : ¬(0 = 1 + k ∧ 1 + k < n + 1))]
  rfl

theorem value_divide_aux (a : ℚ) (b : Evaluation n) :
    ((defaultCtor : Evaluation n).setValue (a * (1 / b.value))).value
      = a * (1 / b.value) := by
  show ((defaultCtor : Evaluation n).setD 0 (a * (1 / b.value))).getD 0 = _
  rw [getD_setD]
  simp

theorem getD_divide (a : ℚ) (b : Evaluation n) (j : ℕ) (hj : j < n + 1) :
    (divide a b).getD j =
      if 1 ≤ j then (- (a * (1 / b.value)) * (1 / b.value)) * b.getD j
      else a * (1 / b.value) := by
  show (cppFor (n + 1)
      (divideBody b (- ((defaultCtor : Evaluation n).setValue (a * (1 / b.value))).value
        * (1 / b.value))) 1
      ((defaultCtor : Evaluation n).setValue (a * (1 / b.value)))).getD j = _
  rw [getD_cppFor_divideBody _ _ 1 _ j hj (by omega), value_divide_aux]
  by_cases h1 : 1 ≤ j
  · simp [h1]
  · have h0 : j = 0 := by omega
    subst h0
    simpa using value_divide_aux a b

theorem value_divide (a : ℚ) (b : Evaluation n) :
    (divide a b).value = a * (1 / b.value) := by
  show (divide a b).getD 0 = _
  rw [getD_divide a b 0 (by omega)]
  simp

theorem derivative_divide (a : ℚ) (b : Evaluation n) (k : ℕ) (hk : k < n) :
    (divide a b).derivative k =
      (- (a * (1 / b.value)) * (1 / b.value)) * b.derivative k := by
  show (divide a b).getD (1 + k) = _
  rw [getD_divide a b (1 + k) (by omega)]
  rw [if_pos (by omega : 1 ≤ 1 + k)]
  rfl

theorem getD_assignScalar (e : Evaluation n) (c : ℚ) (j : ℕ) (hj : j < n + 1) :
    (assignScalar e c).getD j = if 1 ≤ j then 0 else c :=
  getD_mkConstant e c j hj

theorem createVariable_eq_some (init : Evaluation n) (c : ℚ) (k : ℤ)
    (hk : 0 ≤ k ∧ k < (n : ℤ)) :
    createVariable init c k = some ((mkConstant init c).setD (k.toNat + 1) 1) := by
  unfold createVariable mkVariable
  rw [if_pos hk]
  rfl

theorem value_variable (init : Evaluation n) (c : ℚ) (p : ℕ) (_hp : p < n) :
    ((mkConstant init c).setD (p + 1) 1).value = c := by
  show ((mkConstant init c).setD (p + 1) 1).getD 0 = c
  rw [getD_setD, if_neg (by omega)]
  exact value_mkConstant init c

theorem derivative_variable_self (init : Evaluation n) (c : ℚ) (p : ℕ) (hp : p < n) :
    ((mkConstant init c).setD (p + 1) 1).derivative p = 1 := by
  show ((mkConstant init c).setD (p + 1) 1).getD (1 + p) = 1
  rw [getD_setD, if_pos ⟨by omega, by omega⟩]

theorem derivative_variable_other (init : Evaluation n) (c : ℚ) (p q : ℕ)
    (hq : q < n) (hne : q ≠ p) :
    ((mkConstant init c).setD (p + 1) 1).derivative q = 0 := by
  show ((mkConstant init c).setD (p + 1) 1).getD (1 + q) = 0
  rw [getD_setD, if_neg (by omega)]
  exact derivative_mkConstant init c q hq

theorem value_mul (a b : Evaluation n) : (mul a b).value = a.value * b.value :=
  value_mulAssign a b

theorem derivative_mul (a b : Evaluation n) (k : ℕ) (hk : k < n) :
    (mul a b).derivative k = a.derivative k * b.value + b.derivative k * a.value :=
  derivative_mulAssign a b k hk

theorem value_div (a b : Evaluation n) : (div a b).value = a.value * (1 / b.value) :=
  value_divAssign a b

theorem derivative_div (a b : Evaluation n) (k : ℕ) (hk : k < n) :
    (div a b).derivative k =
      a.derivative k * (1 / b.value)
        - b.derivative k * (a.value * (1 / b.value) * (1 / b.value)) :=
  derivative_divAssign a b k hk

end Generic

/-!
## The unrolled variant coincides with the generic one, operation by operation
-/

namespace Refine

open Evaluation

variable {n : ℕ}

theorem clearDerivatives_eq (e : Evaluation n) :
    Unrolled.clearDerivatives e = Generic.clearDerivatives e :=
  (cppFor_one_eq_stmts n clearBody e).symm

theorem copyCtor_eq (init other : Evaluation n) :
    Unrolled.copyCtor init other = Generic.copyCtor other := by
  apply eq_of_getD
  intro j hj
  rw [show Unrolled.copyCtor init other = cppFor (n + 1) (copyBody other) 0 init from
    (cppFor_zero_eq_stmts n (copyBody other) init).symm]
  rw [getD_cppFor_copyBody other 0 init j hj (by omega)]
  simp
  rfl

theorem mkConstant_eq (init : Evaluation n) (c : ℚ) :
    Unrolled.mkConstant init c = Generic.mkConstant init c :=
  clearDerivatives_eq _

theorem mkVariable_eq (init : Evaluation n) (c : ℚ) (k : ℤ) :
    Unrolled.mkVariable init c k = Generic.mkVariable init c k := by
  unfold Unrolled.mkVariable Generic.mkVariable
  rw [clearDerivatives_eq]

theorem copyDerivatives_eq (e other : Evaluation n) :
    Unrolled.copyDerivatives e other = Generic.copyDerivatives e other :=
  (cppFor_one_eq_stmts n (copyBody other) e).symm

theorem addAssign_eq (e other : Evaluation n) :
    Unrolled.addAssign e other = Generic.addAssign e other :=
  (cppFor_zero_eq_stmts n (addBody other) e).symm

theorem subAssign_eq (e other : Evaluation n) :
    Unrolled.subAssign e other = Generic.subAssign e other :=
  (cppFor_zero_eq_stmts n (subBody other) e).symm

theorem mulAssign_eq (e other : Evaluation n) :
    Unrolled.mulAssign e other = Generic.mulAssign e other :=
  (cppFor_one_eq_stmts n (mulBody other e.value other.value)
    (e.setD 0 (e.getD 0 * other.value))).symm

theorem mulAssignScalar_eq (e : Evaluation n) (c : ℚ) :
    Unrolled.mulAssignScalar e c = Generic.mulAssignScalar e c :=
  (cppFor_zero_eq_stmts n (scaleBody c) e).symm

theorem divAssign_eq (e other : Evaluation n) :
    Unrolled.divAssign e other = Generic.divAssign e other :=
  (cppFor_one_eq_stmts n
    (divBody other (1 / other.value) (e.value * (1 / other.value) * (1 / other.value)))
    (e.setD 0 (e.getD 0 * (1 / other.value)))).symm

theorem divAssignScalar_eq (e : Evaluation n) (c : ℚ) :
    Unrolled.divAssignScalar e c = Generic.divAssignScalar e c :=
  (cppFor_zero_eq_stmts n (scaleBody (1 / c)) e).symm

theorem divide_eq (a : ℚ) (b : Evaluation n) :
    Unrolled.divide a b = Generic.divide a b := by
  unfold Unrolled.divide Generic.divide
  exact (cppFor_one_eq_stmts n _ _).symm

theorem neg_eq (e : Evaluation n) :
    Unrolled.neg e = Generic.neg e :=
  (cppFor_zero_eq_stmts n (negBody e) Generic.defaultCtor).symm

theorem assignScalar_eq (e : Evaluation n) (c : ℚ) :
    Unrolled.assignScalar e c = Generic.assignScalar e c :=
  clearDerivatives_eq _

theorem copyAssign_eq (e other : Evaluation n) :
    Unrolled.copyAssign e other = Generic.copyAssign e other :=
  (cppFor_zero_eq_stmts n (copyBody other) e).symm

theorem add_eq (init e other : Evaluation n) :
    Unrolled.add init e other = Generic.add e other := by
  unfold Unrolled.add Generic.add
  rw [copyCtor_eq, addAssign_eq]

theorem sub_eq (init e other : Evaluation n) :
    Unrolled.sub init e other = Generic.sub e other := by
  unfold Unrolled.sub Generic.sub
  rw [copyCtor_eq, subAssign_eq]

theorem mul_eq (init e other : Evaluation n) :
    Unrolled.mul init e other = Generic.mul e other := by
  unfold Unrolled.mul Generic.mul
  rw [copyCtor_eq, mulAssign_eq]

theorem div_eq (init e other : Evaluation n) :
    Unrolled.div init e other = Generic.div e other := by
  unfold Unrolled.div Generic.div
  rw [copyCtor_eq, divAssign_eq]

theorem addScalar_eq (init e : Evaluation n) (c : ℚ) :
    Unrolled.addScalar init e c = Generic.addScalar e c := by
  unfold Unrolled.addScalar Generic.addScalar
  rw [copyCtor_eq]
  rfl

theorem subScalar_eq (init e : Evaluation n) (c : ℚ) :
    Unrolled.subScalar init e c = Generic.subScalar e c := by
  unfold Unrolled.subScalar Generic.subScalar
  rw [copyCtor_eq]
  rfl

theorem mulScalar_eq (init e : Evaluation n) (c : ℚ) :
    Unrolled.mulScalar init e c = Generic.mulScalar e c := by
  unfold Unrolled.mulScalar Generic.mulScalar
  rw [copyCtor_eq, mulAssignScalar_eq]

theorem divScalar_eq (init e : Evaluation n) (c : ℚ) :
    Unrolled.divScalar init e c = Generic.divScalar e c := by
  unfold Unrolled.divScalar Generic.divScalar
  rw [copyCtor_eq, divAssignScalar_eq]

end Refine

/-!
## Lemmas about the generation run
-/

theorem foldl_genStep (s : String) (l : List ℕ) :
    ∀ (fns : List String) (files : List (String × FileContent)),
      l.foldl (genStep s) (fns, files) =
        (fns ++ l.map specFileName,
         files ++ l.map fun k => (specFileName k, FileContent.specialization k s)) := by
  induction l with
  | nil => intro fns files; simp
  | cons a t ih =>
      intro fns files
      rw [List.foldl_cons,
          show genStep s (fns, files) a
            = (fns ++ [specFileName a],
               files ++ [(specFileName a, FileContent.specialization a s)]) from rfl,
          ih]
      simp

theorem generate_eq (m : ℕ) (s : String) :
    generate m s =
      (genericFileName, FileContent.generic s)
        :: (List.range' 1 m).map (fun k => (specFileName k, FileContent.specialization k s))
        ++ [(aggregatorFileName,
             FileContent.aggregator ((List.range' 1 m).map specFileName) s)] := by
  show (List.foldl (genStep s) ([], [(genericFileName, FileContent.generic s)])
        (List.range' 1 m)).2
      ++ [(aggregatorFileName,
           FileContent.aggregator
             (List.foldl (genStep s) ([], [(genericFileName, FileContent.generic s)])
               (List.range' 1 m)).1 s)] = _
  rw [foldl_genStep]
  simp

/-!
## The claims
-/

open Evaluation

/-- C1: `Evaluation::operator*=(const Evaluation&)` (and the derived
`operator*`) implements the product rule with `u = this->value()` and
`v = other.value()` captured before any mutation: the result's value is `u*v`
and every derivative `i` is `d_u[i]*v + d_v[i]*u`; concretely, for
`u = variable(3, 0)` and `v = variable(4, 1)` with `N = 2`, `u*v` has value 12
and derivative vector `[4, 3]`. -/
theorem mul_product_rule :
    (∀ (n : ℕ) (a b : Evaluation n),
      Generic.mul a b = Generic.mulAssign a b ∧
      (Generic.mulAssign a b).value = a.value * b.value ∧
      ∀ i : Fin n, (Generic.mulAssign a b).derivative i =
        a.derivative i * b.value + b.derivative i * a.value) ∧
    ∃ u v : Evaluation 2,
      Generic.createVariable Generic.defaultCtor 3 0 = some u ∧
      Generic.createVariable Generic.defaultCtor 4 1 = some v ∧
      (Generic.mul u v).value = 12 ∧
      (Generic.mul u v).derivative 0 = 4 ∧
      (Generic.mul u v).derivative 1 = 3 := by
  refine ⟨fun n a b => ⟨rfl, Generic.value_mulAssign a b,
      fun i => Generic.derivative_mulAssign a b i i.isLt⟩,
    (Generic.mkConstant (Generic.defaultCtor : Evaluation 2) 3).setD (0 + 1) 1,
    (Generic.mkConstant (Generic.defaultCtor : Evaluation 2) 4).setD (1 + 1) 1,
    Generic.createVariable_eq_some _ 3 0 (by decide),
    Generic.createVariable_eq_some _ 4 1 (by decide), ?_, ?_, ?_⟩
  · rw [Generic.value_mul, Generic.value_variable _ 3 0 (by omega),
        Generic.value_variable _ 4 1 (by omega)]
    norm_num
  · rw [Generic.derivative_mul _ _ 0 (by omega),
        Generic.derivative_variable_self _ 3 0 (by omega),
        Generic.derivative_variable_other _ 4 1 0 (by omega) (by omega),
        Generic.value_variable _ 3 0 (by omega),
        Generic.value_variable _ 4 1 (by omega)]
    norm_num
  · rw [Generic.derivative_mul _ _ 1 (by omega),
        Generic.derivative_variable_other _ 3 0 1 (by omega) (by omega),
        Generic.derivative_variable_self _ 4 1 (by omega),
        Generic.value_variable _ 3 0 (by omega),
        Generic.value_variable _ 4 1 (by omega)]
    norm_num

/-- C2: `Evaluation::operator/=(const Evaluation&)` (and the derived
`operator/`) implements the quotient rule with `inv_v = 1/other.value()` and
`u_scaled = this->value()*inv_v*inv_v` captured before any mutation: the
result's value is `this->value()*inv_v` and every derivative `i` is
`d_u[i]*inv_v - d_v[i]*u_scaled`; concretely, for `u = variable(3, 0)` and
`v = variable(4, 1)` with `N = 2`, `u/v` has value 0.75 and derivative vector
`[0.25, -0.1875]`. -/
theorem div_quotient_rule :
    (∀ (n : ℕ) (a b : Evaluation n),
      Generic.div a b = Generic.divAssign a b ∧
      (Generic.divAssign a b).value = a.value * (1 / b.value) ∧
      ∀ i : Fin n, (Generic.divAssign a b).derivative i =
        a.derivative i * (1 / b.value)
          - b.derivative i * (a.value * (1 / b.value) * (1 / b.value))) ∧
    ∃ u v : Evaluation 2,
      Generic.createVariable Generic.defaultCtor 3 0 = some u ∧
      Generic.createVariable Generic.defaultCtor 4 1 = some v ∧
      (Generic.div u v).value = 0.75 ∧
      (Generic.div u v).derivative 0 = 0.25 ∧
      (Generic.div u v).derivative 1 = -0.1875 := by
  refine ⟨fun n a b => ⟨rfl, Generic.value_divAssign a b,
      fun i => Generic.derivative_divAssign a b i i.isLt⟩,
    (Generic.mkConstant (Generic.defaultCtor : Evaluation 2) 3).setD (0 + 1) 1,
    (Generic.mkConstant (Generic.defaultCtor : Evaluation 2) 4).setD (1 + 1) 1,
    Generic.createVariable_eq_some _ 3 0 (by decide),
    Generic.createVariable_eq_some _ 4 1 (by decide), ?_, ?_, ?_⟩
  · rw [Generic.value_div, Generic.value_variable _ 3 0 (by omega),
        Generic.value_variable _ 4 1 (by omega)]
    norm_num
  · rw [Generic.derivative_div _ _ 0 (by omega),
        Generic.derivative_variable_self _ 3 0 (by omega),
        Generic.derivative_variable_other _ 4 1 0 (by omega) (by omega),
        Generic.value_variable _ 3 0 (by omega),
        Generic.value_variable _ 4 1 (by omega)]
    norm_num
  · rw [Generic.derivative_div _ _ 1 (by omega),
        Generic.derivative_variable_other _ 3 0 1 (by omega) (by omega),
        Generic.derivative_variable_self _ 4 1 (by omega),
        Generic.value_variable _ 3 0 (by omega),
        Generic.value_variable _ 4 1 (by omega)]
    norm_num

/-- C3: for every derivative count `n` (in particular every `N` from 1 to
`maxDerivs`) and every input, each operation of the unrolled specialization —
constructors, `clearDerivatives`, `copyDerivatives`, the compound-assignment
operators, `divide`, unary minus, assignment and the comparisons — produces
exactly the same `Evaluation` (value and every derivative) as the generic
loop-based variant.  Both variants' definitions fold the *same* per-component
statement bodies in the same index order, so the per-component operation order
coincides by construction. -/
theorem unrolled_refines_generic :
    ∀ (n : ℕ) (init a b : Evaluation n) (c : ℚ) (k : ℤ),
      (Unrolled.defaultCtor : Evaluation n) = Generic.defaultCtor ∧
      Unrolled.copyCtor init a = Generic.copyCtor a ∧
      Unrolled.mkConstant init c = Generic.mkConstant init c ∧
      Unrolled.mkVariable init c k = Generic.mkVariable init c k ∧
      Unrolled.createVariable init c k = Generic.createVariable init c k ∧
      Unrolled.createConstant init c = Generic.createConstant init c ∧
      Unrolled.clearDerivatives a = Generic.clearDerivatives a ∧
      Unrolled.copyDerivatives a b = Generic.copyDerivatives a b ∧
      Unrolled.addAssign a b = Generic.addAssign a b ∧
      Unrolled.addAssignScalar a c = Generic.addAssignScalar a c ∧
      Unrolled.subAssign a b = Generic.subAssign a b ∧
      Unrolled.subAssignScalar a c = Generic.subAssignScalar a c ∧
      Unrolled.mulAssign a b = Generic.mulAssign a b ∧
      Unrolled.mulAssignScalar a c = Generic.mulAssignScalar a c ∧
      Unrolled.divAssign a b = Generic.divAssign a b ∧
      Unrolled.divAssignScalar a c = Generic.divAssignScalar a c ∧
      Unrolled.divide c b = Generic.divide c b ∧
      Unrolled.add init a b = Generic.add a b ∧
      Unrolled.sub init a b = Generic.sub a b ∧
      Unrolled.mul init a b = Generic.mul a b ∧
      Unrolled.div init a b = Generic.div a b ∧
      Unrolled.addScalar init a c = Generic.addScalar a c ∧
      Unrolled.subScalar init a c = Generic.subScalar a c ∧
      Unrolled.mulScalar init a c = Generic.mulScalar a c ∧
      Unrolled.divScalar init a c = Generic.divScalar a c ∧
      Unrolled.neg a = Generic.neg a ∧
      Unrolled.assignScalar a c = Generic.assignScalar a c ∧
      Unrolled.copyAssign a b = Generic.copyAssign a b ∧
      Unrolled.beq a b = Generic.beq a b ∧
      Unrolled.bne a b = Generic.bne a b ∧
      Unrolled.eqScalar a c = Generic.eqScalar a c ∧
      Unrolled.ltE a b = Generic.ltE a b ∧
      Unrolled.gtE a b = Generic.gtE a b ∧
      Unrolled.leE a b = Generic.leE a b ∧
      Unrolled.geE a b = Generic.geE a b ∧
      Unrolled.ltScalar a c = Generic.ltScalar a c ∧
      Unrolled.gtScalar a c = Generic.gtScalar a c ∧
      Unrolled.leScalar a c = Generic.leScalar a c ∧
      Unrolled.geScalar a c = Generic.geScalar a c := by
  intro n init a b c k
  exact ⟨rfl, Refine.copyCtor_eq init a, Refine.mkConstant_eq init c,
    Refine.mkVariable_eq init c k, Refine.mkVariable_eq init c k,
    Refine.mkConstant_eq init c, Refine.clearDerivatives_eq a,
    Refine.copyDerivatives_eq a b, Refine.addAssign_eq a b, rfl,
    Refine.subAssign_eq a b, rfl, Refine.mulAssign_eq a b,
    Refine.mulAssignScalar_eq a c, Refine.divAssign_eq a b,
    Refine.divAssignScalar_eq a c, Refine.divide_eq c b,
    Refine.add_eq init a b, Refine.sub_eq init a b, Refine.mul_eq init a b,
    Refine.div_eq init a b, Refine.addScalar_eq init a c,
    Refine.subScalar_eq init a c, Refine.mulScalar_eq init a c,
    Refine.divScalar_eq init a c, Refine.neg_eq a, Refine.assignScalar_eq a c,
    Refine.copyAssign_eq a b, rfl, rfl, rfl, rfl, rfl, rfl, rfl, rfl, rfl,
    rfl, rfl⟩

/-- C4: for `0 ≤ varPos < N`, `createVariable(v, varPos)` (via the
`(value, varPos)` constructor) yields an Evaluation with value `v`, derivative
`varPos` equal to 1 and every other derivative 0; an index outside `[0, N)`
trips the constructor's assertion (modelled as `none`) rather than returning a
recoverable value. -/
theorem createVariable_spec :
    ∀ (n : ℕ) (init : Evaluation n) (v : ℚ) (k : ℤ),
      (0 ≤ k ∧ k < (n : ℤ) →
        ∃ e, Generic.createVariable init v k = some e ∧
          e.value = v ∧ e.derivative k.toNat = 1 ∧
          ∀ j : Fin n, (j.val : ℤ) ≠ k → e.derivative j.val = 0) ∧
      (¬(0 ≤ k ∧ k < (n : ℤ)) → Generic.createVariable init v k = none) := by
  intro n init v k
  constructor
  · intro hk
    have hkn : k.toNat < n := by omega
    refine ⟨(Generic.mkConstant init v).setD (k.toNat + 1) 1, ?_, ?_, ?_, ?_⟩
    · unfold Generic.createVariable Generic.mkVariable
      rw [if_pos hk]
      rfl
    · show ((Generic.mkConstant init v).setD (k.toNat + 1) 1).getD 0 = v
      rw [getD_setD, if_neg (by omega)]
      exact Generic.value_mkConstant init v
    · show ((Generic.mkConstant init v).setD (k.toNat + 1) 1).getD (1 + k.toNat) = 1
      rw [getD_setD, if_pos ⟨by omega, by omega⟩]
    · intro j hj
      have hj' : j.val ≠ k.toNat := by omega
      show ((Generic.mkConstant init v).setD (k.toNat + 1) 1).getD (1 + j.val) = 0
      rw [getD_setD, if_neg (by omega)]
      exact Generic.derivative_mkConstant init v j.val j.isLt
  · intro hk
    unfold Generic.createVariable Generic.mkVariable
    rw [if_neg hk]

/-- C4 witness: `createVariable(5, 1)` with `N = 2` succeeds with value 5,
derivative 1 equal to 1 and derivative 0 equal to 0, while `varPos = -1`
trips the assertion. -/
theorem createVariable_spec_witness :
    (∃ e, Generic.createVariable (Generic.defaultCtor : Evaluation 2) 5 1 = some e ∧
      e.value = 5 ∧ e.derivative (Int.toNat 1) = 1 ∧
      ∀ j : Fin 2, (j.val : ℤ) ≠ 1 → e.derivative j.val = 0) ∧
    Generic.createVariable (Generic.defaultCtor : Evaluation 2) 5 (-1) = none :=
  ⟨(createVariable_spec 2 Generic.defaultCtor 5 1).1 (by decide),
   (createVariable_spec 2 Generic.defaultCtor 5 (-1)).2 (by decide)⟩

/-- C5: for every Evaluation `x` with nonzero value (and every `N`), the
static `divide(1, x)` produces an Evaluation equal — same value and every
derivative — to `1/x` in operator form (the free
`operator/(const RhsValueType&, const Evaluation&)`). -/
theorem divide_one_eq_scalar_div :
    ∀ (n : ℕ) (x : Evaluation n), x.value ≠ 0 →
      Generic.scalarDiv 1 x = Generic.divide 1 x ∧
      (Generic.scalarDiv 1 x).value = (Generic.divide 1 x).value ∧
      ∀ i : Fin n, (Generic.scalarDiv 1 x).derivative i
        = (Generic.divide 1 x).derivative i := by
  intro n x hx
  exact ⟨rfl, rfl, fun i => rfl⟩

/-- C5 witness: at `x = ⟨value 2, derivative 5⟩` with `N = 1`. -/
theorem divide_one_eq_scalar_div_witness :
    (⟨![2, 5]⟩ : Evaluation 1).value ≠ 0 ∧
      Generic.scalarDiv 1 (⟨![2, 5]⟩ : Evaluation 1) = Generic.divide 1 ⟨![2, 5]⟩ :=
  ⟨by decide, (divide_one_eq_scalar_div 1 ⟨![2, 5]⟩ (by decide)).1⟩

/-- C6: assigning a bare scalar to an existing Evaluation
(`operator=(const RhsValueType&)`) sets its value to that scalar and zeroes
every derivative, for every prior state of the Evaluation. -/
theorem assign_scalar_resets :
    ∀ (n : ℕ) (e : Evaluation n) (c : ℚ),
      (Generic.assignScalar e c).value = c ∧
      ∀ i : Fin n, (Generic.assignScalar e c).derivative i = 0 := by
  intro n e c
  constructor
  · show (Generic.assignScalar e c).getD 0 = c
    rw [Generic.getD_assignScalar e c 0 (by omega), if_neg (by omega)]
  · intro i
    have hi : 1 + i.val < n + 1 := by have := i.isLt; omega
    show (Generic.assignScalar e c).getD (1 + i.val) = 0
    rw [Generic.getD_assignScalar e c (1 + i.val) hi, if_pos (by omega)]

/-- C7: ordering comparisons between two Evaluations depend only on their
values: for `a`, `b` with equal value but a differing derivative, `a <= b` and
`a >= b` hold, `a < b` and `a > b` fail, and `a == b` (structural equality
over value and all derivatives) is false. -/
theorem ordering_value_only :
    ∀ (n : ℕ) (a b : Evaluation n) (k : ℕ), a.value = b.value → k < n →
      a.derivative k ≠ b.derivative k →
      Generic.leE a b = true ∧ Generic.geE a b = true ∧
      Generic.ltE a b = false ∧ Generic.gtE a b = false ∧
      Generic.beq a b = false := by
  intro n a b k hv hk hd
  have hh : 1 + k < n + 1 := by omega
  refine ⟨?_, ?_, ?_, ?_, ?_⟩
  · simp [Generic.leE, hv]
  · simp [Generic.geE, hv]
  · simp [Generic.ltE, hv]
  · simp [Generic.gtE, hv]
  · unfold Generic.beq
    rw [List.all_eq_false]
    refine ⟨⟨1 + k, hh⟩, List.mem_finRange _, ?_⟩
    simp only [beq_iff_eq]
    intro heq
    apply hd
    show a.getD (1 + k) = b.getD (1 + k)
    unfold getD
    rw [dif_pos hh, dif_pos hh]
    exact heq

/-- C7 witness: `a = ⟨value 1, derivative 2⟩`, `b = ⟨value 1, derivative 3⟩`
with `N = 1`. -/
theorem ordering_value_only_witness :
    Generic.leE (⟨![1, 2]⟩ : Evaluation 1) ⟨![1, 3]⟩ = true ∧
    Generic.geE (⟨![1, 2]⟩ : Evaluation 1) ⟨![1, 3]⟩ = true ∧
    Generic.ltE (⟨![1, 2]⟩ : Evaluation 1) ⟨![1, 3]⟩ = false ∧
    Generic.gtE (⟨![1, 2]⟩ : Evaluation 1) ⟨![1, 3]⟩ = false ∧
    Generic.beq (⟨![1, 2]⟩ : Evaluation 1) ⟨![1, 3]⟩ = false :=
  ordering_value_only 1 ⟨![1, 2]⟩ ⟨![1, 3]⟩ 0 (by decide) (by decide) (by decide)

/-- C8: the free scalar-on-the-left operators match the member forms with
operand order accounted for: `a + b` equals the member `b + a`, `a - b` has
value `a - b.value()` and derivative `i` equal to `-b.derivative(i)` (while
keeping none of `b`'s derivatives), `a * b` equals the member `b * a`, and
`a / b` equals `divide(a, b)`. -/
theorem scalar_left_ops_spec :
    ∀ (n : ℕ) (a : ℚ) (b init : Evaluation n),
      Generic.scalarAdd a b = Generic.addScalar b a ∧
      (∀ i : Fin n, (Generic.scalarAdd a b).derivative i = b.derivative i) ∧
      (Generic.scalarSub init a b).value = a - b.value ∧
      (∀ i : Fin n, (Generic.scalarSub init a b).derivative i = - b.derivative i) ∧
      Generic.scalarMul a b = Generic.mulScalar b a ∧
      Generic.scalarDiv a b = Generic.divide a b := by
  intro n a b init
  refine ⟨rfl, ?_, ?_, ?_, rfl, rfl⟩
  · intro i
    have hi : 1 + i.val < n + 1 := by have := i.isLt; omega
    show (b.setD 0 (b.getD 0 + a)).getD (1 + i.val) = b.derivative i.val
    rw [getD_setD, if_neg (by omega)]
    rfl
  · show (Generic.subAssign (Generic.mkConstant init a) b).getD 0 = a - b.value
    rw [Generic.getD_subAssign _ b 0 (by omega),
        Generic.getD_mkConstant init a 0 (by omega), if_neg (by omega)]
    rfl
  · intro i
    have hi : 1 + i.val < n + 1 := by have := i.isLt; omega
    show (Generic.subAssign (Generic.mkConstant init a) b).getD (1 + i.val)
        = - b.derivative i.val
    rw [Generic.getD_subAssign _ b _ hi, Generic.getD_mkConstant init a _ hi,
        if_pos (by omega), zero_sub]
    rfl

/-- C9: the generation run is a deterministic function of the
maximum-derivative-count bound and the script name: equal inputs give equal
output file lists, the output is the generic file, one specialization per `N`
from 1 to the bound, and the aggregator whose `fileNames` list the
specializations in ascending `N` order. -/
theorem generation_deterministic :
    ∀ (m₁ m₂ : ℕ) (s₁ s₂ : String), m₁ = m₂ → s₁ = s₂ →
      generate m₁ s₁ = generate m₂ s₂ ∧
      generate m₁ s₁ =
        (genericFileName, FileContent.generic s₁)
          :: (List.range' 1 m₁).map
              (fun k => (specFileName k, FileContent.specialization k s₁))
          ++ [(aggregatorFileName,
               FileContent.aggregator ((List.range' 1 m₁).map specFileName) s₁)] ∧
      List.Pairwise (· < ·) (List.range' 1 m₁) := by
  intro m₁ m₂ s₁ s₂ hm hs
  subst hm
  subst hs
  exact ⟨rfl, generate_eq m₁ s₁, by simp [List.pairwise_lt_range']⟩

/-- C9 witness: two runs at the default bound 12 with the script's own name. -/
theorem generation_deterministic_witness :
    generate 12 "genEvalSpecializations.py" = generate 12 "genEvalSpecializations.py" :=
  (generation_deterministic 12 12 "genEvalSpecializations.py" "genEvalSpecializations.py"
    rfl rfl).1

/-- C10: a default-constructed Evaluation (`Evaluation() : data_()`) is fully
zero-initialized: its value is 0 and every derivative is 0, and it equals
`createConstant(0)` under structural equality (`operator==`). -/
theorem defaultCtor_zero :
    ∀ (n : ℕ) (init : Evaluation n),
      (Generic.defaultCtor : Evaluation n).value = 0 ∧
      (∀ i : Fin n, (Generic.defaultCtor : Evaluation n).derivative i = 0) ∧
      (Generic.defaultCtor : Evaluation n) = Generic.createConstant init 0 ∧
      Generic.beq Generic.defaultCtor (Generic.createConstant init 0) = true := by
  intro n init
  have hkey : (Generic.defaultCtor : Evaluation n) = Generic.createConstant init 0 := by
    apply eq_of_getD
    intro j hj
    rw [show Generic.createConstant init 0 = Generic.mkConstant init 0 from rfl,
        Generic.getD_mkConstant init 0 j hj]
    unfold Generic.defaultCtor getD
    rw [dif_pos hj]
    split_ifs <;> rfl
  refine ⟨?_, ?_, hkey, ?_⟩
  · show (Generic.defaultCtor : Evaluation n).getD 0 = 0
    unfold Generic.defaultCtor getD
    split_ifs <;> rfl
  · intro i
    show (Generic.defaultCtor : Evaluation n).getD (1 + i.val) = 0
    unfold Generic.defaultCtor getD
    split_ifs <;> rfl
  · rw [← hkey]
    unfold Generic.beq
    simp [List.all_eq_true]

end OpmDenseAD
